import Mathlib

/-!
Verification of the Anime-Analytics-Dashboard ETL pipeline against its
natural-language specification.

The definitions below are a shallow embedding of the Python sources:

* `services/etl/src/models/jikan.py`   — pydantic data models and validators
* `services/etl/src/transformers/anime.py` — `AnimeTransformer`
* `services/etl/src/loaders/database.py`   — `DatabaseLoader`
* `services/etl/src/extractors/jikan.py`   — `JikanExtractor.fetch_anime_search`
* `services/etl/main.py`                   — `ETLPipeline.run_job`, `test_connections`
* `services/etl/scheduler.py`              — `ETLScheduler`

Python free text (synopsis, background) is modelled as `List Char`; Python
floats carrying scores are modelled as `Rat` (the code only copies and
compares them, never does float arithmetic); the relational store is a list
of rows, each row holding the column values of one `anime_snapshots` row.
Databases, network and logging are replaced by explicit state passing and
explicit outcome parameters.
-/

/-- Python text, as a sequence of characters. -/
abbrev PyStr := List Char

/-- Calendar date (`datetime.date`); only compared for equality by the code. -/
structure Date where
  year : Int
  month : Nat
  day : Nat
deriving DecidableEq, Repr

/-- Generic Jikan entity (producer, studio, genre, ...), `JikanEntity` in
`models/jikan.py`. -/
structure JikanEntity where
  mal_id : Int
  type : String
  name : String
  url : String
deriving DecidableEq, Repr

/-- One title entry, `JikanTitle` in `models/jikan.py`. -/
structure JikanTitle where
  type : String
  title : String
deriving DecidableEq, Repr

/-- Date property structure, `JikanDateProp` in `models/jikan.py`. -/
structure JikanDateProp where
  day : Option Int := none
  month : Option Int := none
  year : Option Int := none
deriving DecidableEq, Repr

/-- Aired property structure, `JikanAiredProp` in `models/jikan.py`
(Python field `to` is written `to_` here, `to` being a Lean keyword). -/
structure JikanAiredProp where
  from_ : Option JikanDateProp := none
  to_ : Option JikanDateProp := none
  string : Option String := none
deriving DecidableEq, Repr

/-- Aired date information, `JikanAired` in `models/jikan.py`
(Python field `to` is written `to_` here). -/
structure JikanAired where
  from_ : Option String := none
  to_ : Option String := none
  prop : Option JikanAiredProp := none
deriving DecidableEq, Repr

/-- Image URL record, `JikanImage` in `models/jikan.py`. -/
structure JikanImage where
  image_url : Option String := none
  small_image_url : Option String := none
  large_image_url : Option String := none
deriving DecidableEq, Repr

/-- Image collection, `JikanImages` in `models/jikan.py`. -/
structure JikanImages where
  jpg : Option JikanImage := none
  webp : Option JikanImage := none
deriving DecidableEq, Repr

/-- Trailer data, `JikanTrailer` in `models/jikan.py`. -/
structure JikanTrailer where
  youtube_id : Option String := none
  url : Option String := none
  embed_url : Option String := none
deriving DecidableEq, Repr

/-- Broadcast data, `JikanBroadcast` in `models/jikan.py`. -/
structure JikanBroadcast where
  day : Option String := none
  time : Option String := none
  timezone : Option String := none
  string : Option String := none
deriving DecidableEq, Repr

/-- Raw anime record from the Jikan API, `JikanAnime` in `models/jikan.py`.
Every field beyond `mal_id` and `title` is optional, with the same pydantic
defaults (`None`). -/
structure JikanAnime where
  mal_id : Int
  url : Option String := none
  images : Option JikanImages := none
  trailer : Option JikanTrailer := none
  approved : Option Bool := none
  titles : Option (List JikanTitle) := none
  title : String
  title_english : Option String := none
  title_japanese : Option String := none
  title_synonyms : Option (List String) := none
  type : Option String := none
  source : Option String := none
  episodes : Option Int := none
  status : Option String := none
  airing : Option Bool := none
  aired : Option JikanAired := none
  duration : Option String := none
  rating : Option String := none
  score : Option Rat := none
  scored_by : Option Int := none
  rank : Option Int := none
  popularity : Option Int := none
  members : Option Int := none
  favorites : Option Int := none
  synopsis : Option PyStr := none
  background : Option PyStr := none
  season : Option String := none
  year : Option Int := none
  broadcast : Option JikanBroadcast := none
  producers : Option (List JikanEntity) := none
  licensors : Option (List JikanEntity) := none
  studios : Option (List JikanEntity) := none
  genres : Option (List JikanEntity) := none
  explicit_genres : Option (List JikanEntity) := none
  themes : Option (List JikanEntity) := none
  demographics : Option (List JikanEntity) := none
deriving DecidableEq, Repr

/-- Normalized snapshot record, `AnimeSnapshot` in `models/jikan.py`.
The pydantic `model_dump` of the nested structures is represented by the
structures themselves (the dump is a field-for-field copy). -/
structure AnimeSnapshot where
  mal_id : Int
  url : Option String := none
  title : String
  title_english : Option String := none
  title_japanese : Option String := none
  title_synonyms : Option (List String) := none
  titles : Option (List JikanTitle) := none
  type : Option String := none
  source : Option String := none
  episodes : Option Int := none
  status : Option String := none
  airing : Option Bool := none
  duration : Option String := none
  rating : Option String := none
  score : Option Rat := none
  scored_by : Option Int := none
  rank : Option Int := none
  popularity : Option Int := none
  members : Option Int := none
  favorites : Option Int := none
  approved : Option Bool := none
  season : Option String := none
  year : Option Int := none
  aired : Option JikanAired := none
  synopsis : Option PyStr := none
  background : Option PyStr := none
  images : Option JikanImages := none
  trailer : Option JikanTrailer := none
  genres : Option (List JikanEntity) := none
  explicit_genres : Option (List JikanEntity) := none
  themes : Option (List JikanEntity) := none
  demographics : Option (List JikanEntity) := none
  studios : Option (List JikanEntity) := none
  producers : Option (List JikanEntity) := none
  licensors : Option (List JikanEntity) := none
  broadcast : Option JikanBroadcast := none
  snapshot_type : String
  snapshot_date : Date
deriving DecidableEq, Repr

/-- Python whitespace characters recognised by `str.split()` (ASCII range). -/
def pyIsSpace (c : Char) : Bool :=
  c = ' ' || c = '\t' || c = '\n' || c = '\x0d' || c = '\x0b' || c = '\x0c'

/-- Python `text.split()`: split on runs of whitespace, dropping empty
chunks. -/
def pySplit (s : PyStr) : List PyStr :=
  (s.splitOnP pyIsSpace).filter (fun w => w ≠ [])

/-- Python `" ".join(text.split())`: whitespace collapsed to single spaces,
with no leading or trailing whitespace. -/
def pyClean (s : PyStr) : PyStr :=
  List.intercalate [' '] (pySplit s)

/-- The transformer's `_clean_text` (`transformers/anime.py`): falsy input
(absent or empty text) maps to `None`; otherwise whitespace is collapsed and
text longer than 5000 characters is cut to its first 4997 characters plus
an ellipsis. -/
def clean_text : Option PyStr → Option PyStr
  | none => none
  | some t =>
    if t = [] then none
    else
      let cleaned := pyClean t
      if 5000 < cleaned.length then some (cleaned.take 4997 ++ ['.', '.', '.'])
      else some cleaned

/-- Message produced by the pydantic `validate_score` field validator on
`AnimeSnapshot`: a present score outside `[0, 10]` is rejected. -/
def validate_score_msgs (v : Option Rat) : List String :=
  match v with
  | none => []
  | some s => if s < 0 ∨ s > 10 then ["Score must be between 0 and 10"] else []

/-- Message produced by the pydantic `validate_episodes` field validator on
`AnimeSnapshot`: a present negative episode count is rejected. -/
def validate_episodes_msgs (v : Option Int) : List String :=
  match v with
  | none => []
  | some n => if n < 0 then ["Episodes cannot be negative"] else []

/-- The two exception kinds the transformer loop distinguishes: a pydantic
`ValidationError` raised while constructing an `AnimeSnapshot`, and any other
exception.  In the embedded code only the validation kind actually occurs. -/
inductive TransformFailure where
  | validationError (msgs : List String)
  | unexpected (msg : String)
deriving DecidableEq, Repr

/-- The transformer's `_convert_entities_to_dict`: a falsy value (absent or
empty list) becomes `None`; otherwise the entities are copied field by field
(the copy is represented by the list itself). -/
def convert_entities_to_dict (entities : Option (List JikanEntity)) :
    Option (List JikanEntity) :=
  match entities with
  | none => none
  | some l => if l = [] then none else some l

/-- The transformer's `_transform_single_anime`: flatten the raw record into
an `AnimeSnapshot`, cleaning the free-text fields; pydantic validation of
score and episodes runs at construction and a violation is a
`ValidationError` scoped to this record. -/
def transform_single_anime (anime : JikanAnime) (snapshot_type : String)
    (snapshot_date : Date) : Except TransformFailure AnimeSnapshot :=
  let titles_dict : Option (List JikanTitle) :=
    match anime.titles with
    | none => none
    | some l => if l = [] then none else some l
  let candidate : AnimeSnapshot := {
    mal_id := anime.mal_id
    url := anime.url
    title := anime.title
    title_english := anime.title_english
    title_japanese := anime.title_japanese
    title_synonyms := anime.title_synonyms
    titles := titles_dict
    type := anime.type
    source := anime.source
    episodes := anime.episodes
    status := anime.status
    airing := anime.airing
    duration := anime.duration
    rating := anime.rating
    score := anime.score
    scored_by := anime.scored_by
    rank := anime.rank
    popularity := anime.popularity
    members := anime.members
    favorites := anime.favorites
    approved := anime.approved
    season := anime.season
    year := anime.year
    aired := anime.aired
    synopsis := clean_text anime.synopsis
    background := clean_text anime.background
    images := anime.images
    trailer := anime.trailer
    genres := convert_entities_to_dict anime.genres
    explicit_genres := convert_entities_to_dict anime.explicit_genres
    themes := convert_entities_to_dict anime.themes
    demographics := convert_entities_to_dict anime.demographics
    studios := convert_entities_to_dict anime.studios
    producers := convert_entities_to_dict anime.producers
    licensors := convert_entities_to_dict anime.licensors
    broadcast := anime.broadcast
    snapshot_type := snapshot_type
    snapshot_date := snapshot_date }
  match validate_score_msgs candidate.score ++ validate_episodes_msgs candidate.episodes with
  | [] => .ok candidate
  | msgs => .error (.validationError msgs)

/-- One entry of the transformer's `validation_errors` list. -/
structure ErrorDetail where
  mal_id : Int
  title : String
  error : String
deriving DecidableEq, Repr

/-- The transformer's `transformation_stats` dictionary. -/
structure TransformStats where
  total_processed : Nat := 0
  successful_transforms : Nat := 0
  validation_errors : Nat := 0
  dropped_invalid : Nat := 0
deriving DecidableEq, Repr

/-- Mutable state of an `AnimeTransformer` instance: the error list and the
statistics dictionary set up in `__init__`. -/
structure TransformerState where
  validation_errors : List ErrorDetail := []
  transformation_stats : TransformStats := {}
deriving DecidableEq, Repr

/-- A freshly constructed `AnimeTransformer` (`__init__`). -/
def initTransformer : TransformerState := {}

/-- Body of the `for anime in anime_list` loop of `transform_anime_list`:
bump `total_processed`, then either append the snapshot and bump
`successful_transforms`, or record the error and bump the counter matching
the exception kind. -/
def transformStep (snapshot_type : String) (snapshot_date : Date)
    (acc : TransformerState × List AnimeSnapshot) (anime : JikanAnime) :
    TransformerState × List AnimeSnapshot :=
  let st := acc.1
  let out := acc.2
  let st := { st with transformation_stats :=
    { st.transformation_stats with
        total_processed := st.transformation_stats.total_processed + 1 } }
  match transform_single_anime anime snapshot_type snapshot_date with
  | .ok snap =>
    ({ st with transformation_stats :=
        { st.transformation_stats with
            successful_transforms := st.transformation_stats.successful_transforms + 1 } },
      out ++ [snap])
  | .error (.validationError msgs) =>
    ({ st with
        validation_errors := st.validation_errors ++
          [{ mal_id := anime.mal_id, title := anime.title,
             error := String.intercalate "; " msgs }],
        transformation_stats :=
          { st.transformation_stats with
              validation_errors := st.transformation_stats.validation_errors + 1 } },
      out)
  | .error (.unexpected msg) =>
    ({ st with
        validation_errors := st.validation_errors ++
          [{ mal_id := anime.mal_id, title := anime.title,
             error := "Transformation error: " ++ msg }],
        transformation_stats :=
          { st.transformation_stats with
              dropped_invalid := st.transformation_stats.dropped_invalid + 1 } },
      out)

/-- The transformer's `transform_anime_list`: reset `validation_errors`,
then process every record independently, returning the new transformer state
and the list of successfully transformed snapshots. -/
def transform_anime_list (st : TransformerState) (anime_list : List JikanAnime)
    (snapshot_type : String) (snapshot_date : Date) :
    TransformerState × List AnimeSnapshot :=
  anime_list.foldl (transformStep snapshot_type snapshot_date)
    ({ st with validation_errors := [] }, [])

/-- Return value of `get_transformation_summary`. -/
structure TransformSummary where
  stats : TransformStats
  validation_errors : List ErrorDetail
  success_rate : Rat
deriving DecidableEq, Repr

/-- The transformer's `get_transformation_summary`. -/
def get_transformation_summary (st : TransformerState) : TransformSummary :=
  { stats := st.transformation_stats
    validation_errors := st.validation_errors
    success_rate :=
      ((st.transformation_stats.successful_transforms : Rat) /
        ((max st.transformation_stats.total_processed 1 : Nat) : Rat)) * 100 }

/-- The transformer's `reset_stats`: statistics and error list back to the
freshly constructed values. -/
def reset_stats (_st : TransformerState) : TransformerState := {}

/-- The error entry `transform_anime_list` records for a raw record, `none`
when the record transforms successfully. -/
def errDetailOf (snapshot_type : String) (snapshot_date : Date)
    (anime : JikanAnime) : Option ErrorDetail :=
  match transform_single_anime anime snapshot_type snapshot_date with
  | .ok _ => none
  | .error (.validationError msgs) =>
    some { mal_id := anime.mal_id, title := anime.title,
           error := String.intercalate "; " msgs }
  | .error (.unexpected msg) =>
    some { mal_id := anime.mal_id, title := anime.title,
           error := "Transformation error: " ++ msg }

/-- Whether a per-record transform fails with a pydantic validation error. -/
def isValidationFailure (r : Except TransformFailure AnimeSnapshot) : Bool :=
  match r with
  | .error (.validationError _) => true
  | _ => false

/-- Whether a per-record transform fails with any other exception. -/
def isUnexpectedFailure (r : Except TransformFailure AnimeSnapshot) : Bool :=
  match r with
  | .error (.unexpected _) => true
  | _ => false

/-- The natural key of a snapshot: `(mal_id, snapshot_type, snapshot_date)`,
the triple the `anime_snapshots` unique index and the `ON CONFLICT` clause
are keyed on. -/
def naturalKey (s : AnimeSnapshot) : Int × String × Date :=
  (s.mal_id, s.snapshot_type, s.snapshot_date)

/-- One row of the `anime_snapshots` table: the column values bound from a
snapshot dictionary, plus the server-managed `updated_at` timestamp
(modelled as an abstract tick). -/
structure Row where
  data : AnimeSnapshot
  updated_at : Nat
deriving DecidableEq, Repr

/-- Key of a stored row. -/
def rowKey (r : Row) : Int × String × Date :=
  naturalKey r.data

/-- The relational store backing the loader: the `anime_snapshots` table. -/
abbrev Store := List Row

/-- The loader's `_snapshot_to_dict`: the parameter dictionary bound into
the INSERT statements.  JSON serialization of the nested structures is a
value-preserving encoding, represented by the structures themselves; the
one value change is `float(snapshot.score) if snapshot.score else None`,
which maps a score of `0.0` (falsy in Python) to `None`. -/
def snapshot_to_dict (s : AnimeSnapshot) : AnimeSnapshot :=
  { s with score := match s.score with
      | none => none
      | some v => if v = 0 then none else some v }

/-- The existence probe of `_load_batch`: `SELECT id FROM anime_snapshots
WHERE mal_id = ... AND snapshot_type = ... AND snapshot_date = ...`. -/
def findExisting (store : Store) (s : AnimeSnapshot) : Option Row :=
  store.find? (fun r => decide (rowKey r = naturalKey s))

/-- The `DO UPDATE SET` arm of the upsert statement: overwrite title, score,
rank, popularity, members, favorites and `updated_at` on the conflicting
row, from the bound dictionary `d`; every other column keeps its stored
value. -/
def applyConflictUpdate (r : Row) (d : AnimeSnapshot) (now : Nat) : Row :=
  { r with
    data := { r.data with
      title := d.title
      score := d.score
      rank := d.rank
      popularity := d.popularity
      members := d.members
      favorites := d.favorites }
    updated_at := now }

/-- Effect on the table of executing the upsert statement (`INSERT ... ON
CONFLICT (mal_id, snapshot_type, snapshot_date) DO UPDATE SET ...`) with the
dictionary of snapshot `s`: update the conflicting row when the key is
present, insert a full new row otherwise. -/
def upsertExec (store : Store) (s : AnimeSnapshot) (now : Nat) : Store :=
  let d := snapshot_to_dict s
  if (findExisting store s).isSome then
    store.map (fun r =>
      if rowKey r = naturalKey s then applyConflictUpdate r d now else r)
  else
    store ++ [{ data := d, updated_at := now }]

/-- Statistics dictionary of one `_load_batch` call. -/
structure BatchStats where
  successful_inserts : Nat := 0
  successful_updates : Nat := 0
  duplicate_skips : Nat := 0
  errors : Nat := 0
  error_details : List ErrorDetail := []
deriving DecidableEq, Repr

/-- Body of the `for snapshot in batch` loop of `_load_batch`, on the valid
records the claims quantify over (no per-record database error occurs):
probe for an existing row, then skip / upsert / plain-insert and count. -/
def loadRecord (upsert : Bool) (now : Nat)
    (acc : Store × BatchStats) (s : AnimeSnapshot) : Store × BatchStats :=
  let store := acc.1
  let stats := acc.2
  let existing := (findExisting store s).isSome
  if !upsert && existing then
    (store, { stats with duplicate_skips := stats.duplicate_skips + 1 })
  else if upsert then
    (upsertExec store s now,
      if existing then
        { stats with successful_updates := stats.successful_updates + 1 }
      else
        { stats with successful_inserts := stats.successful_inserts + 1 })
  else
    (store ++ [{ data := snapshot_to_dict s, updated_at := now }],
      { stats with successful_inserts := stats.successful_inserts + 1 })

/-- The loader's `_load_batch`: one session per batch; every record is
attempted, then the batch commits.  `commitOk = false` is the commit
failure: the whole batch rolls back (the store is left as it was) and the
`errors` counter is overwritten with the batch length. -/
def load_batch (batch : List AnimeSnapshot) (upsert : Bool) (commitOk : Bool)
    (now : Nat) (store : Store) : Store × BatchStats :=
  let attempted := batch.foldl (loadRecord upsert now) (store, {})
  if commitOk then attempted
  else (store, { attempted.2 with errors := batch.length })

/-- Fuel-driven core of `chunks`; the fuel is the list length, enough for
any positive chunk size. -/
def chunksGo (n : Nat) : Nat → List α → List (List α)
  | 0, _ => []
  | _ + 1, [] => []
  | fuel + 1, x :: xs => (x :: xs).take n :: chunksGo n fuel ((x :: xs).drop n)

/-- Python `for i in range(0, len(snapshots), batch_size)` slicing
`snapshots[i : i + batch_size]`: the input partitioned into consecutive
chunks of size `n` (last one possibly shorter). -/
def chunks (n : Nat) (l : List α) : List (List α) :=
  chunksGo n l.length l

/-- The batch loop of `load_snapshots`: process each batch in order against
the store left by the previous one; the head of `flags` tells whether this
batch's commit succeeds (an empty list means every commit succeeds). -/
def runBatches (upsert : Bool) (now : Nat) :
    List (List AnimeSnapshot) → List Bool → Store → Store × List BatchStats
  | [], _, store => (store, [])
  | b :: bs, flags, store =>
    let first := load_batch b upsert (flags.headD true) now store
    let rest := runBatches upsert now bs flags.tail first.1
    (rest.1, first.2 :: rest.2)

/-- Aggregate statistics dictionary returned by `load_snapshots`. -/
structure LoadStats where
  total_snapshots : Nat := 0
  successful_inserts : Nat := 0
  successful_updates : Nat := 0
  duplicate_skips : Nat := 0
  errors : Nat := 0
  error_details : List ErrorDetail := []
deriving DecidableEq, Repr

/-- Statistics aggregation of `load_snapshots`: batch statistics summed into
the call-level dictionary. -/
def aggregateStats (total : Nat) (bstats : List BatchStats) : LoadStats :=
  { total_snapshots := total
    successful_inserts := (bstats.map (fun b => b.successful_inserts)).sum
    successful_updates := (bstats.map (fun b => b.successful_updates)).sum
    duplicate_skips := (bstats.map (fun b => b.duplicate_skips)).sum
    errors := (bstats.map (fun b => b.errors)).sum
    error_details := (bstats.map (fun b => b.error_details)).flatten }

/-- The loader's `load_snapshots`: early return on an empty input, otherwise
partition into batches of `batch_size`, load each batch and aggregate the
statistics.  `flags` injects the per-batch commit outcomes (empty for a
fault-free run). -/
def load_snapshots (snapshots : List AnimeSnapshot) (batch_size : Nat)
    (upsert : Bool) (flags : List Bool) (now : Nat) (store : Store) :
    Store × LoadStats :=
  if snapshots = [] then (store, { total_snapshots := 0 })
  else
    let r := runBatches upsert now (chunks batch_size snapshots) flags store
    (r.1, aggregateStats snapshots.length r.2)

/-- Outcome of one page request inside `fetch_anime_search`: a parsed
`JikanSearchResponse` (its items and `pagination.has_next_page`), a
`JikanAPIError` surviving the retries, or a response that fails to parse. -/
inductive PageResult where
  | success (items : List JikanAnime) (has_next_page : Bool)
  | apiError (msg : String)
  | parseError (msg : String)
deriving DecidableEq, Repr

/-- The `while True` pagination loop of `fetch_anime_search`, driven by
fuel (the Python loop has no structural bound; every theorem below supplies
enough fuel for its stopping condition).  `api` maps a page number to the
outcome of requesting that page; the result carries the aggregated items
and the list of page numbers requested, in request order. -/
def fetchAux (api : Nat → PageResult) (max_pages : Option Nat) :
    Nat → Nat → List JikanAnime → List Nat → List JikanAnime × List Nat
  | 0, _, acc, reqs => (acc, reqs)
  | fuel + 1, page, acc, reqs =>
    let reqs := reqs ++ [page]
    match api page with
    | .apiError _ => (acc, reqs)
    | .parseError _ => (acc, reqs)
    | .success items hasNext =>
      let acc := acc ++ items
      if !hasNext then (acc, reqs)
      else
        match max_pages with
        | some m =>
          if m ≤ page then (acc, reqs)
          else fetchAux api max_pages fuel (page + 1) acc reqs
        | none => fetchAux api max_pages fuel (page + 1) acc reqs

/-- The extractor's `fetch_anime_search`: sequential page requests starting
at page 1, stopping on `has_next_page = false`, on the `max_pages` cap, or
on a page-level error. -/
def fetch_anime_search (api : Nat → PageResult) (max_pages : Option Nat)
    (fuel : Nat) : List JikanAnime × List Nat :=
  fetchAux api max_pages fuel 1 [] []

/-- Job status values assigned by `ETLPipeline.run_job`. -/
inductive JobStatus where
  | success
  | success_no_data
  | success_no_valid_data
  | failed
deriving DecidableEq, Repr

/-- The `job_result` dictionary of `run_job`; a phase's sub-dictionary is
`none` while it still holds the initial `{}`. -/
structure JobResult where
  job_name : String
  status : JobStatus
  extraction_count : Option Nat
  transformation : Option TransformSummary
  loading : Option LoadStats
  error : Option String
deriving DecidableEq, Repr

/-- The mutable collaborators `ETLPipeline` holds across jobs: the single
`AnimeTransformer` instance created in `__init__` and the database the
loader writes to. -/
structure PipelineState where
  transformer : TransformerState
  store : Store
deriving DecidableEq, Repr

/-- The orchestrator's `run_job` for a configured job.  Extraction is an
outside-world interaction and enters as its outcome (`Except`): the raw
record list on success, the exception message otherwise.  Transformation
and loading run the embedded transformer and loader; in the source both
catch every exception internally, so the only exception reaching the
`except` clause of `run_job` is an extraction failure.  `flags` and `now`
are the loader's commit outcomes and timestamp tick. -/
def run_job (job_name : String) (snapshot_type : String) (today : Date)
    (extract : Except String (List JikanAnime)) (flags : List Bool)
    (now : Nat) (ps : PipelineState) : PipelineState × JobResult :=
  match extract with
  | .error e =>
    (ps, { job_name := job_name, status := .failed, extraction_count := none,
           transformation := none, loading := none,
           error := some ("ETL job failed: " ++ e) })
  | .ok anime_list =>
    if anime_list = [] then
      (ps, { job_name := job_name, status := .success_no_data,
             extraction_count := some anime_list.length,
             transformation := none, loading := none, error := none })
    else
      let t := transform_anime_list ps.transformer anime_list snapshot_type today
      let summary := get_transformation_summary t.1
      let ps1 : PipelineState := { ps with transformer := t.1 }
      if t.2 = [] then
        (ps1, { job_name := job_name, status := .success_no_valid_data,
                extraction_count := some anime_list.length,
                transformation := some summary, loading := none, error := none })
      else
        let l := load_snapshots t.2 100 true flags now ps1.store
        ({ ps1 with store := l.1 },
          { job_name := job_name, status := .success,
            extraction_count := some anime_list.length,
            transformation := some summary, loading := some l.2, error := none })

/-- Return value of `ETLPipeline.test_connections`: the database entry is
the result of the loader's connection test; the `jikan_api` entry is the
hardcoded `True`. -/
structure Connections where
  database : Bool
  jikan_api : Bool
deriving DecidableEq, Repr

/-- The orchestrator's `test_connections`. -/
def test_connections (databaseOk : Bool) : Connections :=
  { database := databaseOk, jikan_api := true }

/-- Return value of the scheduler's `run_daily_etl`: either the pipeline
result dictionary of `run_all_jobs`, or the `{"status": "failed",
"error": ...}` dictionary built on a failed connection test or a caught
exception. -/
inductive EtlRunOutcome (α : Type) where
  | pipelineResult (r : α)
  | failedResult (error : String)
deriving DecidableEq, Repr

/-- The scheduler's `run_daily_etl`: test connections first and stop with
the failure dictionary when any reported connection is false; otherwise run
all jobs (`runAllJobs`, abstract here, returns the pipeline state it left
behind and either a result or the message of a raised exception). -/
def run_daily_etl {α : Type} (databaseOk : Bool) (ps : PipelineState)
    (runAllJobs : PipelineState → PipelineState × Except String α) :
    PipelineState × EtlRunOutcome α :=
  let connections := test_connections databaseOk
  if connections.database && connections.jikan_api then
    let r := runAllJobs ps
    match r.2 with
    | .ok res => (r.1, .pipelineResult res)
    | .error e => (r.1, .failedResult e)
  else
    (ps, .failedResult "Connection test failed")

/-- State owned by `ETLScheduler`: the `is_running` busy flag set up in
`__init__`. -/
structure SchedulerState where
  is_running : Bool
deriving DecidableEq, Repr

/-- Observable behaviour of one trigger of `_run_daily_job`: whether the
pipeline was executed, the scheduler state any concurrent trigger observes
while the pipeline call is in flight, the state after the `finally` block,
and the pipeline outcome (`none` when the trigger was skipped; the
`Except` distinguishes a returning from a raising pipeline run). -/
structure TriggerTrace (α : Type) where
  ran : Bool
  during : SchedulerState
  final : SchedulerState
  outcome : Option (Except String α)
deriving Repr

/-- The scheduler's `_run_daily_job`: skip when `is_running` is already
set; otherwise set the flag, run the pipeline (outcome `etl`), and clear
the flag in the `finally` block whether the run returned or raised. -/
def run_daily_job {α : Type} (s : SchedulerState) (etl : Except String α) :
    TriggerTrace α :=
  if s.is_running then
    { ran := false, during := s, final := s, outcome := none }
  else
    { ran := true, during := { is_running := true },
      final := { is_running := false }, outcome := some etl }

/-- Natural keys of the rows currently in the store. -/
def storeKeys (store : Store) : List (Int × String × Date) :=
  store.map rowKey

/-- Concrete snapshot date used by the witness instances. -/
def sampleDate : Date := { year := 2024, month := 1, day := 15 }

/-- A concrete valid snapshot (score 8.75), as the transformer would emit
for `mal_id = 1` of the spec example. -/
def sampleSnapshot : AnimeSnapshot :=
  { mal_id := 1, title := "Sample", score := some (8 : Rat),
    snapshot_type := "top", snapshot_date := sampleDate }

/-- A second valid snapshot with the same natural key as `sampleSnapshot`
but different mutable and historical fields. -/
def sampleSnapshotNewer : AnimeSnapshot :=
  { mal_id := 1, title := "Sample v2", score := some (9 : Rat),
    rank := some 3, synopsis := some "plot".data,
    genres := some [{ mal_id := 1, type := "anime", name := "Action",
                      url := "u" }],
    snapshot_type := "top", snapshot_date := sampleDate }

/-- A concrete raw record that transforms successfully. -/
def sampleAnime : JikanAnime :=
  { mal_id := 1, title := "Sample", score := some (8 : Rat) }

/-- A concrete raw record rejected by the score validator (score 10.5). -/
def badAnime : JikanAnime :=
  { mal_id := 2, title := "Bad", score := some (11 : Rat) }

/-- The pipeline state at process start: fresh transformer, empty store. -/
def initPipeline : PipelineState :=
  { transformer := initTransformer, store := [] }

theorem rowKey_applyConflictUpdate (r : Row) (d : AnimeSnapshot) (now : Nat) :
    rowKey (applyConflictUpdate r d now) = rowKey r := rfl

theorem naturalKey_snapshot_to_dict (s : AnimeSnapshot) :
    naturalKey (snapshot_to_dict s) = naturalKey s := rfl

theorem findExisting_isSome_iff (store : Store) (s : AnimeSnapshot) :
    (findExisting store s).isSome = true ↔ naturalKey s ∈ storeKeys store := by
  simp only [findExisting, List.find?_isSome, storeKeys, List.mem_map,
    decide_eq_true_eq]

theorem storeKeys_upsertExec_mem (store : Store) (s : AnimeSnapshot) (now : Nat)
    (h : naturalKey s ∈ storeKeys store) :
    storeKeys (upsertExec store s now) = storeKeys store := by
  have hex : (findExisting store s).isSome = true :=
    (findExisting_isSome_iff store s).mpr h
  simp only [upsertExec, hex, if_true, storeKeys, List.map_map]
  refine List.map_congr_left ?_
  intro r _
  by_cases hk : rowKey r = naturalKey s <;>
    simp [hk, rowKey_applyConflictUpdate]

theorem storeKeys_upsertExec_not_mem (store : Store) (s : AnimeSnapshot) (now : Nat)
    (h : ¬ naturalKey s ∈ storeKeys store) :
    storeKeys (upsertExec store s now) = storeKeys store ++ [naturalKey s] := by
  have hex : (findExisting store s).isSome = false := by
    by_contra hc
    exact h ((findExisting_isSome_iff store s).mp (by
      cases he : (findExisting store s).isSome
      · exact absurd he hc
      · rfl))
  simp [upsertExec, hex, storeKeys, naturalKey_snapshot_to_dict, rowKey]

theorem length_upsertExec_mem (store : Store) (s : AnimeSnapshot) (now : Nat)
    (h : naturalKey s ∈ storeKeys store) :
    (upsertExec store s now).length = store.length := by
  have hex : (findExisting store s).isSome = true :=
    (findExisting_isSome_iff store s).mpr h
  simp [upsertExec, hex]

theorem loadRecord_true_mem (store : Store) (stats : BatchStats)
    (s : AnimeSnapshot) (now : Nat) (h : naturalKey s ∈ storeKeys store) :
    loadRecord true now (store, stats) s =
      (store.map (fun r =>
          if rowKey r = naturalKey s then
            applyConflictUpdate r (snapshot_to_dict s) now
          else r),
        { stats with successful_updates := stats.successful_updates + 1 }) := by
  have hex : (findExisting store s).isSome = true :=
    (findExisting_isSome_iff store s).mpr h
  simp [loadRecord, hex, upsertExec]

theorem loadRecord_true_not_mem (store : Store) (stats : BatchStats)
    (s : AnimeSnapshot) (now : Nat) (h : ¬ naturalKey s ∈ storeKeys store) :
    loadRecord true now (store, stats) s =
      (store ++ [{ data := snapshot_to_dict s, updated_at := now }],
        { stats with successful_inserts := stats.successful_inserts + 1 }) := by
  have hex : (findExisting store s).isSome = false := by
    cases he : (findExisting store s).isSome
    · rfl
    · exact absurd ((findExisting_isSome_iff store s).mp he) h
  simp [loadRecord, hex, upsertExec]


theorem chunksGo_flatten {α : Type} (n : Nat) (hn : 0 < n) :
    ∀ (fuel : Nat) (l : List α), l.length ≤ fuel →
      (chunksGo n fuel l).flatten = l := by
  intro fuel
  induction fuel with
  | zero =>
    intro l hl
    have hnil : l = [] := List.length_eq_zero.mp (Nat.le_zero.mp hl)
    subst hnil
    rfl
  | succ f ih =>
    intro l hl
    cases l with
    | nil => rfl
    | cons x xs =>
      have hdrop : ((x :: xs).drop n).length ≤ f := by
        have h1 : ((x :: xs).drop n).length = (x :: xs).length - n :=
          List.length_drop _ _
        have h2 : (x :: xs).length = xs.length + 1 := List.length_cons x xs
        have h3 : (x :: xs).length ≤ f + 1 := hl
        rw [h1, h2]
        rw [h2] at h3
        omega
      calc (chunksGo n (f + 1) (x :: xs)).flatten
          = (x :: xs).take n ++ (chunksGo n f ((x :: xs).drop n)).flatten := by
            simp [chunksGo]
        _ = (x :: xs).take n ++ (x :: xs).drop n := by rw [ih _ hdrop]
        _ = x :: xs := List.take_append_drop n (x :: xs)

theorem chunks_flatten {α : Type} (n : Nat) (hn : 0 < n) (l : List α) :
    (chunks n l).flatten = l :=
  chunksGo_flatten n hn l.length l (Nat.le_refl _)

theorem storeKeys_map_update (store : Store) (s : AnimeSnapshot)
    (d : AnimeSnapshot) (now : Nat) :
    storeKeys (store.map (fun r =>
        if rowKey r = naturalKey s then applyConflictUpdate r d now else r)) =
      storeKeys store := by
  simp only [storeKeys, List.map_map]
  refine List.map_congr_left ?_
  intro r _
  by_cases hk : rowKey r = naturalKey s <;>
    simp [hk, rowKey_applyConflictUpdate]

theorem storeKeys_loadRecord_true (acc : Store × BatchStats)
    (s : AnimeSnapshot) (now : Nat) :
    (∀ k, k ∈ storeKeys acc.1 → k ∈ storeKeys (loadRecord true now acc s).1) ∧
    naturalKey s ∈ storeKeys (loadRecord true now acc s).1 := by
  by_cases h : naturalKey s ∈ storeKeys acc.1
  · have := loadRecord_true_mem acc.1 acc.2 s now h
    rw [this, storeKeys_map_update]
    exact ⟨fun k hk => hk, h⟩
  · have := loadRecord_true_not_mem acc.1 acc.2 s now h
    rw [this]
    simp only [storeKeys, List.map_append, List.map_cons, List.map_nil]
    constructor
    · intro k hk
      exact List.mem_append_left _ hk
    · refine List.mem_append_right _ ?_
      simp [rowKey, naturalKey_snapshot_to_dict]

theorem foldl_loadRecord_true_keys (now : Nat) :
    ∀ (batch : List AnimeSnapshot) (acc : Store × BatchStats),
    (∀ k, k ∈ storeKeys acc.1 →
      k ∈ storeKeys (batch.foldl (loadRecord true now) acc).1) ∧
    (∀ s ∈ batch,
      naturalKey s ∈ storeKeys (batch.foldl (loadRecord true now) acc).1) := by
  intro batch
  induction batch with
  | nil =>
    intro acc
    exact ⟨fun k hk => hk, by intro s hs; cases hs⟩
  | cons s rest ih =>
    intro acc
    rw [List.foldl_cons]
    obtain ⟨hstep_mono, hstep_self⟩ := storeKeys_loadRecord_true acc s now
    obtain ⟨ih_mono, ih_all⟩ := ih (loadRecord true now acc s)
    refine ⟨fun k hk => ih_mono k (hstep_mono k hk), ?_⟩
    intro x hx
    rcases List.mem_cons.mp hx with hx | hx
    · subst hx
      exact ih_mono _ hstep_self
    · exact ih_all x hx

theorem foldl_loadRecord_true_update_pass (now : Nat) :
    ∀ (batch : List AnimeSnapshot) (acc : Store × BatchStats),
    (∀ s ∈ batch, naturalKey s ∈ storeKeys acc.1) →
    storeKeys (batch.foldl (loadRecord true now) acc).1 = storeKeys acc.1 ∧
    (batch.foldl (loadRecord true now) acc).2 =
      { acc.2 with successful_updates := acc.2.successful_updates + batch.length } := by
  intro batch
  induction batch with
  | nil =>
    intro acc _
    exact ⟨rfl, rfl⟩
  | cons s rest ih =>
    intro acc hall
    have hs : naturalKey s ∈ storeKeys acc.1 := hall s (List.mem_cons_self s rest)
    have hstep := loadRecord_true_mem acc.1 acc.2 s now hs
    rw [List.foldl_cons, hstep]
    have hkeys :
        storeKeys (acc.1.map (fun r =>
          if rowKey r = naturalKey s then
            applyConflictUpdate r (snapshot_to_dict s) now
          else r)) = storeKeys acc.1 := storeKeys_map_update acc.1 s _ now
    have hrest : ∀ x ∈ rest,
        naturalKey x ∈ storeKeys (acc.1.map (fun r =>
          if rowKey r = naturalKey s then
            applyConflictUpdate r (snapshot_to_dict s) now
          else r)) := by
      intro x hx
      rw [hkeys]
      exact hall x (List.mem_cons_of_mem s hx)
    obtain ⟨ihk, ihs⟩ := ih
      (acc.1.map (fun r =>
          if rowKey r = naturalKey s then
            applyConflictUpdate r (snapshot_to_dict s) now
          else r),
        { acc.2 with successful_updates := acc.2.successful_updates + 1 })
      hrest
    refine ⟨by rw [ihk, hkeys], ?_⟩
    rw [ihs]
    simp only [List.length_cons]
    congr 1
    omega

theorem nodup_loadRecord_true (acc : Store × BatchStats) (s : AnimeSnapshot)
    (now : Nat) (h : (storeKeys acc.1).Nodup) :
    (storeKeys (loadRecord true now acc s).1).Nodup := by
  by_cases hm : naturalKey s ∈ storeKeys acc.1
  · rw [loadRecord_true_mem acc.1 acc.2 s now hm, storeKeys_map_update]
    exact h
  · rw [loadRecord_true_not_mem acc.1 acc.2 s now hm]
    have hkeys :
        storeKeys (acc.1 ++ [{ data := snapshot_to_dict s, updated_at := now }]) =
          storeKeys acc.1 ++ [naturalKey s] := by
      simp [storeKeys, rowKey, naturalKey_snapshot_to_dict]
    rw [hkeys]
    simp [List.nodup_append, h, hm]

theorem foldl_loadRecord_true_nodup (now : Nat) :
    ∀ (batch : List AnimeSnapshot) (acc : Store × BatchStats),
    (storeKeys acc.1).Nodup →
    (storeKeys (batch.foldl (loadRecord true now) acc).1).Nodup := by
  intro batch
  induction batch with
  | nil => intro acc h; exact h
  | cons s rest ih =>
    intro acc h
    rw [List.foldl_cons]
    exact ih (loadRecord true now acc s) (nodup_loadRecord_true acc s now h)

theorem load_batch_commit_true (batch : List AnimeSnapshot) (upsert : Bool)
    (now : Nat) (store : Store) :
    load_batch batch upsert true now store =
      batch.foldl (loadRecord upsert now) (store, {}) := by
  simp [load_batch]

theorem load_batch_nodup (batch : List AnimeSnapshot) (c : Bool) (now : Nat)
    (store : Store) (h : (storeKeys store).Nodup) :
    (storeKeys (load_batch batch true c now store).1).Nodup := by
  cases c
  · simpa [load_batch] using h
  · rw [load_batch_commit_true]
    exact foldl_loadRecord_true_nodup now batch (store, {}) h

theorem runBatches_true_keys (now : Nat) :
    ∀ (bs : List (List AnimeSnapshot)) (store : Store),
    (∀ k, k ∈ storeKeys store →
      k ∈ storeKeys (runBatches true now bs [] store).1) ∧
    (∀ b ∈ bs, ∀ s ∈ b,
      naturalKey s ∈ storeKeys (runBatches true now bs [] store).1) := by
  intro bs
  induction bs with
  | nil =>
    intro store
    exact ⟨fun k hk => hk, by intro b hb; cases hb⟩
  | cons b rest ih =>
    intro store
    simp only [runBatches, List.headD_nil, List.tail_nil, load_batch_commit_true]
    obtain ⟨ih_mono, ih_all⟩ := ih (b.foldl (loadRecord true now) (store, {})).1
    obtain ⟨fold_mono, fold_all⟩ :=
      foldl_loadRecord_true_keys now b (store, {})
    refine ⟨fun k hk => ih_mono k (fold_mono k hk), ?_⟩
    intro b' hb' s hs
    rcases List.mem_cons.mp hb' with hb' | hb'
    · subst hb'
      exact ih_mono _ (fold_all s hs)
    · exact ih_all b' hb' s hs

theorem runBatches_true_update_pass (now : Nat) :
    ∀ (bs : List (List AnimeSnapshot)) (store : Store),
    (∀ b ∈ bs, ∀ s ∈ b, naturalKey s ∈ storeKeys store) →
    storeKeys (runBatches true now bs [] store).1 = storeKeys store ∧
    (runBatches true now bs [] store).2 =
      bs.map (fun b => { successful_updates := b.length }) := by
  intro bs
  induction bs with
  | nil =>
    intro store _
    exact ⟨rfl, rfl⟩
  | cons b rest ih =>
    intro store hall
    simp only [runBatches, List.headD_nil, List.tail_nil, load_batch_commit_true]
    have hb : ∀ s ∈ b, naturalKey s ∈ storeKeys store :=
      hall b (List.mem_cons_self b rest)
    obtain ⟨hkeys, hstats⟩ :=
      foldl_loadRecord_true_update_pass now b (store, {}) hb
    have hrest : ∀ b' ∈ rest, ∀ s ∈ b',
        naturalKey s ∈ storeKeys (b.foldl (loadRecord true now) (store, {})).1 := by
      intro b' hb' s hs
      rw [hkeys]
      exact hall b' (List.mem_cons_of_mem b hb') s hs
    obtain ⟨ihk, ihs⟩ := ih (b.foldl (loadRecord true now) (store, {})).1 hrest
    refine ⟨by rw [ihk, hkeys], ?_⟩
    rw [List.map_cons, hstats, ihs]
    simp

theorem runBatches_true_nodup (now : Nat) :
    ∀ (bs : List (List AnimeSnapshot)) (flags : List Bool) (store : Store),
    (storeKeys store).Nodup →
    (storeKeys (runBatches true now bs flags store).1).Nodup := by
  intro bs
  induction bs with
  | nil => intro flags store h; exact h
  | cons b rest ih =>
    intro flags store h
    exact ih flags.tail (load_batch b true (flags.headD true) now store).1
      (load_batch_nodup b (flags.headD true) now store h)

theorem storeKeys_length (store : Store) :
    (storeKeys store).length = store.length :=
  List.length_map store rowKey

theorem sum_map_length_flatten {α : Type} (L : List (List α)) :
    (L.map List.length).sum = L.flatten.length := by
  induction L with
  | nil => rfl
  | cons x xs ih =>
    rw [List.map_cons, List.sum_cons, List.flatten_cons, List.length_append, ih]

theorem sum_map_const_zero {α : Type} (l : List α) :
    (l.map (fun _ => (0 : Nat))).sum = 0 := by
  induction l with
  | nil => rfl
  | cons x xs ih => rw [List.map_cons, List.sum_cons, ih]

theorem aggregateStats_updates_only_inserts (total : Nat)
    (bs : List (List AnimeSnapshot)) :
    (aggregateStats total (bs.map (fun b =>
      ({ successful_updates := b.length } : BatchStats)))).successful_inserts = 0 := by
  show ((bs.map (fun b =>
      ({ successful_updates := b.length } : BatchStats))).map
      (fun b => b.successful_inserts)).sum = 0
  rw [List.map_map]
  show (bs.map (fun _ => (0 : Nat))).sum = 0
  exact sum_map_const_zero bs

theorem aggregateStats_updates_only_updates (total : Nat)
    (bs : List (List AnimeSnapshot)) :
    (aggregateStats total (bs.map (fun b =>
      ({ successful_updates := b.length } : BatchStats)))).successful_updates =
      (bs.map List.length).sum := by
  show ((bs.map (fun b =>
      ({ successful_updates := b.length } : BatchStats))).map
      (fun b => b.successful_updates)).sum = (bs.map List.length).sum
  rw [List.map_map]
  rfl

/-- C1 — Idempotent load: for every list `B` of valid snapshot records,
loading `B` with `upsert = true` and then loading the same `B` again leaves
the store with the same number of rows as after the first call, with no
duplicate rows for any `(mal_id, snapshot_type, snapshot_date)` triple, and
the second call reports zero inserts and counts every record as an
update. -/
theorem claim_C1_idempotent_load (B : List AnimeSnapshot) (store0 : Store)
    (bs now1 now2 : Nat) (hbs : 0 < bs)
    (hnodup : (storeKeys store0).Nodup) :
    (load_snapshots B bs true [] now2
        (load_snapshots B bs true [] now1 store0).1).1.length =
      (load_snapshots B bs true [] now1 store0).1.length ∧
    (storeKeys (load_snapshots B bs true [] now2
        (load_snapshots B bs true [] now1 store0).1).1).Nodup ∧
    (load_snapshots B bs true [] now2
        (load_snapshots B bs true [] now1 store0).1).2.successful_inserts = 0 ∧
    (load_snapshots B bs true [] now2
        (load_snapshots B bs true [] now1 store0).1).2.successful_updates =
      B.length := by
  by_cases hB : B = []
  · subst hB
    refine ⟨rfl, ?_, rfl, rfl⟩
    simpa [load_snapshots] using hnodup
  · have hload : ∀ (now : Nat) (store : Store),
        load_snapshots B bs true [] now store =
          ((runBatches true now (chunks bs B) [] store).1,
            aggregateStats B.length
              (runBatches true now (chunks bs B) [] store).2) := by
      intro now store
      simp [load_snapshots, hB]
    obtain ⟨-, hall1⟩ := runBatches_true_keys now1 (chunks bs B) store0
    have hnodup1 : (storeKeys (runBatches true now1 (chunks bs B) [] store0).1).Nodup :=
      runBatches_true_nodup now1 (chunks bs B) [] store0 hnodup
    obtain ⟨hk2, hs2⟩ :=
      runBatches_true_update_pass now2 (chunks bs B)
        (runBatches true now1 (chunks bs B) [] store0).1 hall1
    rw [hload now1 store0, hload now2 _]
    refine ⟨?_, ?_, ?_, ?_⟩
    · rw [← storeKeys_length, ← storeKeys_length
        (runBatches true now1 (chunks bs B) [] store0).1, hk2]
    · rw [hk2]
      exact hnodup1
    · rw [hs2]
      exact aggregateStats_updates_only_inserts B.length (chunks bs B)
    · rw [hs2, aggregateStats_updates_only_updates B.length (chunks bs B),
        sum_map_length_flatten, chunks_flatten bs hbs]

/-- Witness for C1 at a concrete input: one valid record, empty store,
batch size 100. -/
theorem claim_C1_idempotent_load_witness :
    (load_snapshots [sampleSnapshot] 100 true [] 1
        (load_snapshots [sampleSnapshot] 100 true [] 0 []).1).1.length =
      (load_snapshots [sampleSnapshot] 100 true [] 0 []).1.length ∧
    (load_snapshots [sampleSnapshot] 100 true [] 1
        (load_snapshots [sampleSnapshot] 100 true [] 0 []).1).2.successful_inserts = 0 ∧
    (load_snapshots [sampleSnapshot] 100 true [] 1
        (load_snapshots [sampleSnapshot] 100 true [] 0 []).1).2.successful_updates = 1 := by
  have h := claim_C1_idempotent_load [sampleSnapshot] [] 100 0 1
    (by decide) List.nodup_nil
  exact ⟨h.1, h.2.2.1, h.2.2.2⟩

/-- C3 — Upsert frame property: with `upsert = true`, a record whose
natural key already exists in the store is counted as an update and its
conflict update overwrites exactly title, score, rank, popularity, members,
favorites and the update timestamp, leaving every other column of the
existing row unchanged; a record with no prior row is inserted whole and
counted as an insert. -/
theorem claim_C3_upsert_frame (store : Store) (stats : BatchStats)
    (s : AnimeSnapshot) (now : Nat) :
    (∀ r : Row,
      ((applyConflictUpdate r (snapshot_to_dict s) now).data.title =
          (snapshot_to_dict s).title ∧
        (applyConflictUpdate r (snapshot_to_dict s) now).data.score =
          (snapshot_to_dict s).score ∧
        (applyConflictUpdate r (snapshot_to_dict s) now).data.rank =
          (snapshot_to_dict s).rank ∧
        (applyConflictUpdate r (snapshot_to_dict s) now).data.popularity =
          (snapshot_to_dict s).popularity ∧
        (applyConflictUpdate r (snapshot_to_dict s) now).data.members =
          (snapshot_to_dict s).members ∧
        (applyConflictUpdate r (snapshot_to_dict s) now).data.favorites =
          (snapshot_to_dict s).favorites ∧
        (applyConflictUpdate r (snapshot_to_dict s) now).updated_at = now) ∧
      ((applyConflictUpdate r (snapshot_to_dict s) now).data.mal_id = r.data.mal_id ∧
        (applyConflictUpdate r (snapshot_to_dict s) now).data.url = r.data.url ∧
        (applyConflictUpdate r (snapshot_to_dict s) now).data.title_english =
          r.data.title_english ∧
        (applyConflictUpdate r (snapshot_to_dict s) now).data.title_japanese =
          r.data.title_japanese ∧
        (applyConflictUpdate r (snapshot_to_dict s) now).data.title_synonyms =
          r.data.title_synonyms ∧
        (applyConflictUpdate r (snapshot_to_dict s) now).data.titles = r.data.titles ∧
        (applyConflictUpdate r (snapshot_to_dict s) now).data.type = r.data.type ∧
        (applyConflictUpdate r (snapshot_to_dict s) now).data.source = r.data.source ∧
        (applyConflictUpdate r (snapshot_to_dict s) now).data.episodes =
          r.data.episodes ∧
        (applyConflictUpdate r (snapshot_to_dict s) now).data.status = r.data.status ∧
        (applyConflictUpdate r (snapshot_to_dict s) now).data.airing = r.data.airing ∧
        (applyConflictUpdate r (snapshot_to_dict s) now).data.duration =
          r.data.duration ∧
        (applyConflictUpdate r (snapshot_to_dict s) now).data.rating = r.data.rating ∧
        (applyConflictUpdate r (snapshot_to_dict s) now).data.scored_by =
          r.data.scored_by ∧
        (applyConflictUpdate r (snapshot_to_dict s) now).data.approved =
          r.data.approved ∧
        (applyConflictUpdate r (snapshot_to_dict s) now).data.season = r.data.season ∧
        (applyConflictUpdate r (snapshot_to_dict s) now).data.year = r.data.year ∧
        (applyConflictUpdate r (snapshot_to_dict s) now).data.aired = r.data.aired ∧
        (applyConflictUpdate r (snapshot_to_dict s) now).data.synopsis =
          r.data.synopsis ∧
        (applyConflictUpdate r (snapshot_to_dict s) now).data.background =
          r.data.background ∧
        (applyConflictUpdate r (snapshot_to_dict s) now).data.images = r.data.images ∧
        (applyConflictUpdate r (snapshot_to_dict s) now).data.trailer =
          r.data.trailer ∧
        (applyConflictUpdate r (snapshot_to_dict s) now).data.genres = r.data.genres ∧
        (applyConflictUpdate r (snapshot_to_dict s) now).data.explicit_genres =
          r.data.explicit_genres ∧
        (applyConflictUpdate r (snapshot_to_dict s) now).data.themes = r.data.themes ∧
        (applyConflictUpdate r (snapshot_to_dict s) now).data.demographics =
          r.data.demographics ∧
        (applyConflictUpdate r (snapshot_to_dict s) now).data.studios =
          r.data.studios ∧
        (applyConflictUpdate r (snapshot_to_dict s) now).data.producers =
          r.data.producers ∧
        (applyConflictUpdate r (snapshot_to_dict s) now).data.licensors =
          r.data.licensors ∧
        (applyConflictUpdate r (snapshot_to_dict s) now).data.broadcast =
          r.data.broadcast ∧
        (applyConflictUpdate r (snapshot_to_dict s) now).data.snapshot_type =
          r.data.snapshot_type ∧
        (applyConflictUpdate r (snapshot_to_dict s) now).data.snapshot_date =
          r.data.snapshot_date)) ∧
    (naturalKey s ∈ storeKeys store →
      (loadRecord true now (store, stats) s).2 =
        { stats with successful_updates := stats.successful_updates + 1 } ∧
      (loadRecord true now (store, stats) s).1 =
        store.map (fun r =>
          if rowKey r = naturalKey s then
            applyConflictUpdate r (snapshot_to_dict s) now
          else r)) ∧
    (naturalKey s ∉ storeKeys store →
      (loadRecord true now (store, stats) s).2 =
        { stats with successful_inserts := stats.successful_inserts + 1 } ∧
      (loadRecord true now (store, stats) s).1 =
        store ++ [{ data := snapshot_to_dict s, updated_at := now }]) := by
  refine ⟨?_, ?_, ?_⟩
  · intro r
    exact ⟨⟨rfl, rfl, rfl, rfl, rfl, rfl, rfl⟩,
      ⟨rfl, rfl, rfl, rfl, rfl, rfl, rfl, rfl, rfl, rfl, rfl, rfl, rfl, rfl,
        rfl, rfl, rfl, rfl, rfl, rfl, rfl, rfl, rfl, rfl, rfl, rfl, rfl, rfl,
        rfl, rfl, rfl, rfl⟩⟩
  · intro h
    have he := loadRecord_true_mem store stats s now h
    exact ⟨by rw [he], by rw [he]⟩
  · intro h
    have he := loadRecord_true_not_mem store stats s now h
    exact ⟨by rw [he], by rw [he]⟩

/-- Witness for C3 at concrete inputs: an update against a one-row store
holding the same natural key, and an insert against an empty store; the
stored genres survive the conflict update. -/
theorem claim_C3_upsert_frame_witness :
    naturalKey sampleSnapshotNewer ∈
      storeKeys [{ data := sampleSnapshot, updated_at := 0 }] ∧
    (loadRecord true 7 ([{ data := sampleSnapshot, updated_at := 0 }], {})
        sampleSnapshotNewer).2 =
      { successful_updates := 1 } ∧
    naturalKey sampleSnapshot ∉ storeKeys ([] : Store) ∧
    (loadRecord true 7 (([] : Store), {}) sampleSnapshot).2 =
      { successful_inserts := 1 } ∧
    (applyConflictUpdate { data := sampleSnapshot, updated_at := 0 }
        (snapshot_to_dict sampleSnapshotNewer) 7).data.genres =
      sampleSnapshot.genres := by
  have hmem : naturalKey sampleSnapshotNewer ∈
      storeKeys [{ data := sampleSnapshot, updated_at := 0 }] := by
    simp [storeKeys, rowKey, naturalKey, sampleSnapshot, sampleSnapshotNewer]
  have hnot : naturalKey sampleSnapshot ∉ storeKeys ([] : Store) := by
    simp [storeKeys]
  have h1 := claim_C3_upsert_frame
    [{ data := sampleSnapshot, updated_at := 0 }] {} sampleSnapshotNewer 7
  have h2 := claim_C3_upsert_frame [] {} sampleSnapshot 7
  refine ⟨hmem, ?_, hnot, ?_, ?_⟩
  · rw [(h1.2.1 hmem).1]
  · rw [(h2.2.2 hnot).1]
  · exact ((h1.1 { data := sampleSnapshot, updated_at := 0 }).2).2.2.2.2.2.2.2.2.2.2.2.2.2.2.2.2.2.2.2.2.2.2.2.1

theorem runBatches_append (upsert : Bool) (now : Nat) :
    ∀ (l1 l2 : List (List AnimeSnapshot)) (f1 f2 : List Bool) (store : Store),
    f1.length = l1.length →
    runBatches upsert now (l1 ++ l2) (f1 ++ f2) store =
      ((runBatches upsert now l2 f2 (runBatches upsert now l1 f1 store).1).1,
        (runBatches upsert now l1 f1 store).2 ++
          (runBatches upsert now l2 f2
            (runBatches upsert now l1 f1 store).1).2) := by
  intro l1
  induction l1 with
  | nil =>
    intro l2 f1 f2 store hlen
    have hf : f1 = [] := List.length_eq_zero.mp (by simpa using hlen)
    subst hf
    simp [runBatches]
  | cons b rest ih =>
    intro l2 f1 f2 store hlen
    cases f1 with
    | nil => simp at hlen
    | cons g gs =>
      have hlen' : gs.length = rest.length := by simpa using hlen
      simp only [List.cons_append, runBatches, List.headD_cons, List.tail_cons,
        List.append_eq]
      rw [ih l2 gs f2 (load_batch b upsert g now store).1 hlen']

/-- C2 — Batch commit-failure atomicity: a batch whose commit fails is
rolled back in full (the store is exactly what it was before the batch) and
every record of the batch is counted as errored in that batch's statistics;
the batches before and after it in the same `load_snapshots` call are
processed exactly as they would have been had the failed batch not
existed. -/
theorem claim_C2_commit_failure_atomicity (b : List AnimeSnapshot)
    (pre post : List (List AnimeSnapshot)) (preFlags postFlags : List Bool)
    (upsert : Bool) (now : Nat) (store : Store)
    (hlen : preFlags.length = pre.length) :
    (∀ st : Store, (load_batch b upsert false now st).1 = st) ∧
    (∀ st : Store, (load_batch b upsert false now st).2.errors = b.length) ∧
    runBatches upsert now (pre ++ b :: post) (preFlags ++ false :: postFlags)
        store =
      ((runBatches upsert now post postFlags
          (runBatches upsert now pre preFlags store).1).1,
        (runBatches upsert now pre preFlags store).2 ++
          (load_batch b upsert false now
            (runBatches upsert now pre preFlags store).1).2 ::
          (runBatches upsert now post postFlags
            (runBatches upsert now pre preFlags store).1).2) := by
  refine ⟨?_, ?_, ?_⟩
  · intro st
    simp [load_batch]
  · intro st
    simp [load_batch]
  · rw [runBatches_append upsert now pre (b :: post) preFlags
      (false :: postFlags) store hlen]
    simp only [runBatches, List.headD_cons, List.tail_cons]
    rw [show (load_batch b upsert false now
        (runBatches upsert now pre preFlags store).1).1 =
          (runBatches upsert now pre preFlags store).1 from by
      simp [load_batch]]

/-- Witness for C2 at a concrete input: a two-record batch whose commit
fails, preceded by one committed batch. -/
theorem claim_C2_commit_failure_atomicity_witness :
    (load_batch [sampleSnapshot, sampleSnapshotNewer] true false 0 []).1 = [] ∧
    (load_batch [sampleSnapshot, sampleSnapshotNewer] true false 0 []).2.errors = 2 ∧
    runBatches true 0
        ([[sampleSnapshot]] ++ [sampleSnapshot, sampleSnapshotNewer] :: [])
        ([true] ++ false :: []) [] =
      ((runBatches true 0 [] []
          (runBatches true 0 [[sampleSnapshot]] [true] []).1).1,
        (runBatches true 0 [[sampleSnapshot]] [true] []).2 ++
          (load_batch [sampleSnapshot, sampleSnapshotNewer] true false 0
            (runBatches true 0 [[sampleSnapshot]] [true] []).1).2 ::
          (runBatches true 0 [] []
            (runBatches true 0 [[sampleSnapshot]] [true] []).1).2) := by
  have h := claim_C2_commit_failure_atomicity
    [sampleSnapshot, sampleSnapshotNewer] [[sampleSnapshot]] [] [true] []
    true 0 [] rfl
  exact ⟨h.1 [], h.2.1 [], h.2.2⟩

theorem transformStep_ok (ty : String) (d : Date) (st : TransformerState)
    (out : List AnimeSnapshot) (a : JikanAnime) (snap : AnimeSnapshot)
    (h : transform_single_anime a ty d = .ok snap) :
    transformStep ty d (st, out) a =
      ({ validation_errors := st.validation_errors,
         transformation_stats := {
           total_processed := st.transformation_stats.total_processed + 1,
           successful_transforms :=
             st.transformation_stats.successful_transforms + 1,
           validation_errors := st.transformation_stats.validation_errors,
           dropped_invalid := st.transformation_stats.dropped_invalid } },
        out ++ [snap]) := by
  simp [transformStep, h]

theorem transformStep_verr (ty : String) (d : Date) (st : TransformerState)
    (out : List AnimeSnapshot) (a : JikanAnime) (msgs : List String)
    (h : transform_single_anime a ty d = .error (.validationError msgs)) :
    transformStep ty d (st, out) a =
      ({ validation_errors := st.validation_errors ++
          [{ mal_id := a.mal_id, title := a.title,
             error := String.intercalate "; " msgs }],
         transformation_stats := {
           total_processed := st.transformation_stats.total_processed + 1,
           successful_transforms := st.transformation_stats.successful_transforms,
           validation_errors := st.transformation_stats.validation_errors + 1,
           dropped_invalid := st.transformation_stats.dropped_invalid } },
        out) := by
  simp [transformStep, h]

theorem transformStep_unexp (ty : String) (d : Date) (st : TransformerState)
    (out : List AnimeSnapshot) (a : JikanAnime) (msg : String)
    (h : transform_single_anime a ty d = .error (.unexpected msg)) :
    transformStep ty d (st, out) a =
      ({ validation_errors := st.validation_errors ++
          [{ mal_id := a.mal_id, title := a.title,
             error := "Transformation error: " ++ msg }],
         transformation_stats := {
           total_processed := st.transformation_stats.total_processed + 1,
           successful_transforms := st.transformation_stats.successful_transforms,
           validation_errors := st.transformation_stats.validation_errors,
           dropped_invalid := st.transformation_stats.dropped_invalid + 1 } },
        out) := by
  simp [transformStep, h]

theorem transform_foldl_out (ty : String) (d : Date) :
    ∀ (l : List JikanAnime) (st : TransformerState) (out : List AnimeSnapshot),
    (l.foldl (transformStep ty d) (st, out)).2 =
      out ++ l.filterMap (fun a => (transform_single_anime a ty d).toOption) := by
  intro l
  induction l with
  | nil =>
    intro st out
    simp
  | cons a rest ih =>
    intro st out
    rw [List.foldl_cons]
    cases htr : transform_single_anime a ty d with
    | ok snap =>
      rw [transformStep_ok ty d st out a snap htr, ih]
      simp [List.filterMap_cons, htr, Except.toOption]
    | error f =>
      cases f with
      | validationError msgs =>
        rw [transformStep_verr ty d st out a msgs htr, ih]
        simp [List.filterMap_cons, htr, Except.toOption]
      | unexpected msg =>
        rw [transformStep_unexp ty d st out a msg htr, ih]
        simp [List.filterMap_cons, htr, Except.toOption]

theorem transform_foldl_errors (ty : String) (d : Date) :
    ∀ (l : List JikanAnime) (st : TransformerState) (out : List AnimeSnapshot),
    (l.foldl (transformStep ty d) (st, out)).1.validation_errors =
      st.validation_errors ++ l.filterMap (errDetailOf ty d) := by
  intro l
  induction l with
  | nil =>
    intro st out
    simp
  | cons a rest ih =>
    intro st out
    rw [List.foldl_cons]
    cases htr : transform_single_anime a ty d with
    | ok snap =>
      rw [transformStep_ok ty d st out a snap htr, ih]
      simp [List.filterMap_cons, errDetailOf, htr]
    | error f =>
      cases f with
      | validationError msgs =>
        rw [transformStep_verr ty d st out a msgs htr, ih]
        simp [List.filterMap_cons, errDetailOf, htr]
      | unexpected msg =>
        rw [transformStep_unexp ty d st out a msg htr, ih]
        simp [List.filterMap_cons, errDetailOf, htr]

theorem transform_foldl_total (ty : String) (d : Date) :
    ∀ (l : List JikanAnime) (st : TransformerState) (out : List AnimeSnapshot),
    (l.foldl (transformStep ty d) (st, out)).1.transformation_stats.total_processed =
      st.transformation_stats.total_processed + l.length := by
  intro l
  induction l with
  | nil =>
    intro st out
    simp
  | cons a rest ih =>
    intro st out
    rw [List.foldl_cons]
    cases htr : transform_single_anime a ty d with
    | ok snap =>
      rw [transformStep_ok ty d st out a snap htr, ih]
      simp only [List.length_cons]
      omega
    | error f =>
      cases f with
      | validationError msgs =>
        rw [transformStep_verr ty d st out a msgs htr, ih]
        simp only [List.length_cons]
        omega
      | unexpected msg =>
        rw [transformStep_unexp ty d st out a msg htr, ih]
        simp only [List.length_cons]
        omega

theorem transform_foldl_successful (ty : String) (d : Date) :
    ∀ (l : List JikanAnime) (st : TransformerState) (out : List AnimeSnapshot),
    (l.foldl (transformStep ty d) (st, out)).1.transformation_stats.successful_transforms =
      st.transformation_stats.successful_transforms +
        l.countP (fun a => (transform_single_anime a ty d).toOption.isSome) := by
  intro l
  induction l with
  | nil =>
    intro st out
    simp
  | cons a rest ih =>
    intro st out
    rw [List.foldl_cons]
    cases htr : transform_single_anime a ty d with
    | ok snap =>
      rw [transformStep_ok ty d st out a snap htr, ih]
      simp only [List.countP_cons, htr, Except.toOption, Option.isSome_some,
        if_true]
      omega
    | error f =>
      have hnone : (transform_single_anime a ty d).toOption.isSome = false := by
        rw [htr]
        rfl
      cases f with
      | validationError msgs =>
        rw [transformStep_verr ty d st out a msgs htr, ih]
        simp [List.countP_cons, hnone]
      | unexpected msg =>
        rw [transformStep_unexp ty d st out a msg htr, ih]
        simp [List.countP_cons, hnone]

theorem transform_foldl_vcount (ty : String) (d : Date) :
    ∀ (l : List JikanAnime) (st : TransformerState) (out : List AnimeSnapshot),
    (l.foldl (transformStep ty d) (st, out)).1.transformation_stats.validation_errors =
      st.transformation_stats.validation_errors +
        l.countP (fun a => isValidationFailure (transform_single_anime a ty d)) := by
  intro l
  induction l with
  | nil =>
    intro st out
    simp
  | cons a rest ih =>
    intro st out
    rw [List.foldl_cons]
    cases htr : transform_single_anime a ty d with
    | ok snap =>
      rw [transformStep_ok ty d st out a snap htr, ih]
      simp [List.countP_cons, htr, isValidationFailure]
    | error f =>
      cases f with
      | validationError msgs =>
        rw [transformStep_verr ty d st out a msgs htr, ih]
        simp only [List.countP_cons, htr, isValidationFailure, if_true]
        omega
      | unexpected msg =>
        rw [transformStep_unexp ty d st out a msg htr, ih]
        simp [List.countP_cons, htr, isValidationFailure]

theorem transform_foldl_dcount (ty : String) (d : Date) :
    ∀ (l : List JikanAnime) (st : TransformerState) (out : List AnimeSnapshot),
    (l.foldl (transformStep ty d) (st, out)).1.transformation_stats.dropped_invalid =
      st.transformation_stats.dropped_invalid +
        l.countP (fun a => isUnexpectedFailure (transform_single_anime a ty d)) := by
  intro l
  induction l with
  | nil =>
    intro st out
    simp
  | cons a rest ih =>
    intro st out
    rw [List.foldl_cons]
    cases htr : transform_single_anime a ty d with
    | ok snap =>
      rw [transformStep_ok ty d st out a snap htr, ih]
      simp [List.countP_cons, htr, isUnexpectedFailure]
    | error f =>
      cases f with
      | validationError msgs =>
        rw [transformStep_verr ty d st out a msgs htr, ih]
        simp [List.countP_cons, htr, isUnexpectedFailure]
      | unexpected msg =>
        rw [transformStep_unexp ty d st out a msg htr, ih]
        simp only [List.countP_cons, htr, isUnexpectedFailure, if_true]
        omega

/-- C4 — Transformer per-record isolation: `transform_anime_list` is a
total function of its input (it never raises); the returned list is exactly
the successfully transformed records in input order; every failing record
contributes one entry (identifier, title, error text) to the error list and
bumps the statistics counter matching its failure kind, and the remaining
records are still processed. -/
theorem claim_C4_transformer_isolation (st : TransformerState)
    (l : List JikanAnime) (ty : String) (d : Date) :
    (transform_anime_list st l ty d).2 =
      l.filterMap (fun a => (transform_single_anime a ty d).toOption) ∧
    (transform_anime_list st l ty d).1.validation_errors =
      l.filterMap (errDetailOf ty d) ∧
    (transform_anime_list st l ty d).1.transformation_stats.total_processed =
      st.transformation_stats.total_processed + l.length ∧
    (transform_anime_list st l ty d).1.transformation_stats.successful_transforms =
      st.transformation_stats.successful_transforms +
        l.countP (fun a => (transform_single_anime a ty d).toOption.isSome) ∧
    (transform_anime_list st l ty d).1.transformation_stats.validation_errors =
      st.transformation_stats.validation_errors +
        l.countP (fun a => isValidationFailure (transform_single_anime a ty d)) ∧
    (transform_anime_list st l ty d).1.transformation_stats.dropped_invalid =
      st.transformation_stats.dropped_invalid +
        l.countP (fun a => isUnexpectedFailure (transform_single_anime a ty d)) := by
  unfold transform_anime_list
  refine ⟨?_, ?_, ?_, ?_, ?_, ?_⟩
  · rw [transform_foldl_out ty d l { st with validation_errors := [] } []]
    rfl
  · rw [transform_foldl_errors ty d l { st with validation_errors := [] } []]
    rfl
  · exact transform_foldl_total ty d l { st with validation_errors := [] } []
  · exact transform_foldl_successful ty d l { st with validation_errors := [] } []
  · exact transform_foldl_vcount ty d l { st with validation_errors := [] } []
  · exact transform_foldl_dcount ty d l { st with validation_errors := [] } []

theorem run_job_ok_nonempty (jn ty : String) (today : Date)
    (l : List JikanAnime) (flags : List Bool) (now : Nat) (ps : PipelineState)
    (hl : l ≠ []) :
    (run_job jn ty today (.ok l) flags now ps).1.transformer =
      (transform_anime_list ps.transformer l ty today).1 ∧
    (run_job jn ty today (.ok l) flags now ps).2.transformation =
      some (get_transformation_summary
        (transform_anime_list ps.transformer l ty today).1) := by
  by_cases h2 : (transform_anime_list ps.transformer l ty today).2 = []
  · constructor <;> simp [run_job, hl, h2]
  · constructor <;> simp [run_job, hl, h2]

theorem transform_anime_list_total (st : TransformerState)
    (l : List JikanAnime) (ty : String) (d : Date) :
    (transform_anime_list st l ty d).1.transformation_stats.total_processed =
      st.transformation_stats.total_processed + l.length := by
  unfold transform_anime_list
  exact transform_foldl_total ty d l { st with validation_errors := [] } []

theorem transform_anime_list_errlist (st : TransformerState)
    (l : List JikanAnime) (ty : String) (d : Date) :
    (transform_anime_list st l ty d).1.validation_errors =
      l.filterMap (errDetailOf ty d) := by
  unfold transform_anime_list
  rw [transform_foldl_errors ty d l { st with validation_errors := [] } []]
  rfl

/-- C9 — Transformation statistics accumulate across calls:
`transform_anime_list` resets the `validation_errors` list on every call but
never resets `transformation_stats`, so two successive calls on the same
transformer report `total_processed = n1 + n2`; and because the orchestrator
threads one transformer through every job without calling `reset_stats`, the
second job's reported transformation summary already includes the first
job's counts. -/
theorem claim_C9_stats_accumulate (l1 l2 : List JikanAnime)
    (ty1 ty2 jn1 jn2 : String) (d1 d2 : Date) (flags1 flags2 : List Bool)
    (now1 now2 : Nat) (h1 : l1 ≠ []) (h2 : l2 ≠ []) :
    (transform_anime_list (transform_anime_list initTransformer l1 ty1 d1).1
        l2 ty2 d2).1.transformation_stats.total_processed =
      l1.length + l2.length ∧
    (transform_anime_list (transform_anime_list initTransformer l1 ty1 d1).1
        l2 ty2 d2).1.validation_errors = l2.filterMap (errDetailOf ty2 d2) ∧
    (∃ summary : TransformSummary,
      (run_job jn2 ty2 d2 (.ok l2) flags2 now2
          (run_job jn1 ty1 d1 (.ok l1) flags1 now1 initPipeline).1).2.transformation =
        some summary ∧
      summary.stats.total_processed = l1.length + l2.length) := by
  refine ⟨?_, ?_, ?_⟩
  · rw [transform_anime_list_total, transform_anime_list_total]
    show 0 + l1.length + l2.length = l1.length + l2.length
    omega
  · exact transform_anime_list_errlist _ l2 ty2 d2
  · obtain ⟨ht1, -⟩ :=
      run_job_ok_nonempty jn1 ty1 d1 l1 flags1 now1 initPipeline h1
    obtain ⟨-, ht2⟩ :=
      run_job_ok_nonempty jn2 ty2 d2 l2 flags2 now2
        (run_job jn1 ty1 d1 (.ok l1) flags1 now1 initPipeline).1 h2
    refine ⟨_, ht2, ?_⟩
    show (transform_anime_list
        (run_job jn1 ty1 d1 (.ok l1) flags1 now1 initPipeline).1.transformer
        l2 ty2 d2).1.transformation_stats.total_processed = l1.length + l2.length
    rw [ht1]
    rw [transform_anime_list_total, transform_anime_list_total]
    show 0 + l1.length + l2.length = l1.length + l2.length
    omega

/-- Witness for C9 at concrete inputs: a one-record job followed by a
two-record job (one record of which fails validation) reports
`total_processed = 3` after the second call. -/
theorem claim_C9_stats_accumulate_witness :
    (transform_anime_list
        (transform_anime_list initTransformer [sampleAnime] "top" sampleDate).1
        [sampleAnime, badAnime] "seasonal" sampleDate).1.transformation_stats.total_processed = 3 ∧
    (∃ summary : TransformSummary,
      (run_job "j2" "seasonal" sampleDate (.ok [sampleAnime, badAnime]) [] 1
          (run_job "j1" "top" sampleDate (.ok [sampleAnime]) [] 0
            initPipeline).1).2.transformation = some summary ∧
      summary.stats.total_processed = 3) := by
  have h := claim_C9_stats_accumulate [sampleAnime] [sampleAnime, badAnime]
    "top" "seasonal" "j1" "j2" sampleDate sampleDate [] [] 0 1
    (by simp) (by simp)
  exact ⟨h.1, h.2.2⟩

/-- C7 — Orchestrator job outcome: `run_job` returns `success_no_data` when
extraction yields zero records (transform and load are not invoked and the
pipeline state is untouched), `success_no_valid_data` when transformation
yields zero valid snapshots (load is not invoked, the store is untouched),
`failed` with the exception message captured in the error field when the
phase work raises (in the source only extraction can raise out of the
phases; `run_job` returns normally), and `success` otherwise. -/
theorem claim_C7_job_outcomes (jn ty : String) (today : Date)
    (extract : Except String (List JikanAnime)) (flags : List Bool)
    (now : Nat) (ps : PipelineState) :
    (∀ e, extract = .error e →
      run_job jn ty today extract flags now ps =
        (ps, { job_name := jn, status := .failed, extraction_count := none,
               transformation := none, loading := none,
               error := some ("ETL job failed: " ++ e) })) ∧
    (extract = .ok [] →
      run_job jn ty today extract flags now ps =
        (ps, { job_name := jn, status := .success_no_data,
               extraction_count := some 0, transformation := none,
               loading := none, error := none })) ∧
    (∀ l, extract = .ok l → l ≠ [] →
      (transform_anime_list ps.transformer l ty today).2 = [] →
      run_job jn ty today extract flags now ps =
        ({ ps with transformer := (transform_anime_list ps.transformer l ty today).1 },
          { job_name := jn, status := .success_no_valid_data,
            extraction_count := some l.length,
            transformation := some (get_transformation_summary
              (transform_anime_list ps.transformer l ty today).1),
            loading := none, error := none })) ∧
    (∀ l, extract = .ok l → l ≠ [] →
      (transform_anime_list ps.transformer l ty today).2 ≠ [] →
      (run_job jn ty today extract flags now ps).2.status = .success) := by
  refine ⟨?_, ?_, ?_, ?_⟩
  · intro e he
    subst he
    simp [run_job]
  · intro he
    subst he
    simp [run_job]
  · intro l he hl ht
    subst he
    simp [run_job, hl, ht]
  · intro l he hl ht
    subst he
    simp [run_job, hl, ht]

/-- Witness for C7 at concrete inputs: each of the four outcomes observed
on a concrete job. -/
theorem claim_C7_job_outcomes_witness :
    (run_job "j" "top" sampleDate (.error "boom") [] 0 initPipeline).2.status =
      .failed ∧
    (run_job "j" "top" sampleDate (.error "boom") [] 0 initPipeline).2.error =
      some ("ETL job failed: " ++ "boom") ∧
    (run_job "j" "top" sampleDate (.ok []) [] 0 initPipeline).2.status =
      .success_no_data ∧
    (run_job "j" "top" sampleDate (.ok [badAnime]) [] 0 initPipeline).2.status =
      .success_no_valid_data ∧
    (run_job "j" "top" sampleDate (.ok [sampleAnime]) [] 0 initPipeline).2.status =
      .success := by
  have hf := (claim_C7_job_outcomes "j" "top" sampleDate (.error "boom") [] 0
    initPipeline).1 "boom" rfl
  have hn := (claim_C7_job_outcomes "j" "top" sampleDate (.ok []) [] 0
    initPipeline).2.1 rfl
  have hv := (claim_C7_job_outcomes "j" "top" sampleDate (.ok [badAnime]) [] 0
    initPipeline).2.2.1 [badAnime] rfl (by simp) (by decide)
  have hs := (claim_C7_job_outcomes "j" "top" sampleDate (.ok [sampleAnime]) [] 0
    initPipeline).2.2.2 [sampleAnime] rfl (by simp) (by decide)
  exact ⟨by rw [hf], by rw [hf], by rw [hn], by rw [hv], hs⟩

/-- C8 — Scheduler mutual exclusion and busy-flag release: a trigger that
finds the busy flag set is skipped (no pipeline execution, state unchanged);
otherwise the flag is set for the duration of the run — so a trigger
arriving during the run is skipped — the pipeline runs exactly once, and the
flag is false afterwards whether the run returned or raised. -/
theorem claim_C8_scheduler_mutual_exclusion {α : Type} (s : SchedulerState)
    (etl etl2 : Except String α) :
    (s.is_running = true →
      run_daily_job s etl =
        { ran := false, during := s, final := s, outcome := none }) ∧
    (s.is_running = false →
      (run_daily_job s etl).ran = true ∧
      (run_daily_job s etl).outcome = some etl ∧
      (run_daily_job s etl).during.is_running = true ∧
      (run_daily_job (run_daily_job s etl).during etl2).ran = false ∧
      (run_daily_job s etl).final.is_running = false) := by
  constructor
  · intro h
    simp [run_daily_job, h]
  · intro h
    simp [run_daily_job, h]

/-- Witness for C8 at concrete inputs: a busy scheduler skips; an idle
scheduler runs a raising pipeline and the flag is false again after, and a
trigger arriving mid-run is skipped. -/
theorem claim_C8_scheduler_mutual_exclusion_witness :
    run_daily_job { is_running := true } (Except.ok (0 : Nat)) =
      { ran := false, during := { is_running := true },
        final := { is_running := true }, outcome := none } ∧
    (run_daily_job { is_running := false }
        (Except.error "crash" : Except String Nat)).final.is_running = false ∧
    (run_daily_job
        (run_daily_job { is_running := false }
          (Except.error "crash" : Except String Nat)).during
        (Except.ok (0 : Nat))).ran = false := by
  have hbusy := (claim_C8_scheduler_mutual_exclusion
    { is_running := true } (.ok (0 : Nat)) (.ok 0)).1 rfl
  have hidle := (claim_C8_scheduler_mutual_exclusion
    { is_running := false } (.error "crash") (.ok (0 : Nat))).2 rfl
  exact ⟨hbusy, hidle.2.2.2.2, hidle.2.2.2.1⟩

/-- C10 — Per-run connectivity gate: `run_daily_etl` tests connections
first, and when any reported connection is false it returns the failure
dictionary with error "Connection test failed" without executing any job
(the pipeline state is returned untouched); since `test_connections`
hardcodes `jikan_api` to true, only the database test can trigger this early
failure — when the database test passes, the jobs run. -/
theorem claim_C10_connectivity_gate {α : Type} (databaseOk : Bool)
    (ps : PipelineState)
    (runAllJobs : PipelineState → PipelineState × Except String α) :
    ((test_connections databaseOk).database = false ∨
        (test_connections databaseOk).jikan_api = false →
      run_daily_etl databaseOk ps runAllJobs =
        (ps, .failedResult "Connection test failed")) ∧
    (test_connections databaseOk).jikan_api = true ∧
    ((test_connections databaseOk).database = false ↔ databaseOk = false) ∧
    (databaseOk = true →
      run_daily_etl databaseOk ps runAllJobs =
        ((runAllJobs ps).1,
          match (runAllJobs ps).2 with
          | .ok res => .pipelineResult res
          | .error e => .failedResult e)) := by
  refine ⟨?_, rfl, Iff.rfl, ?_⟩
  · intro h
    rcases h with h | h
    · have hdb : databaseOk = false := h
      subst hdb
      simp [run_daily_etl, test_connections]
    · exact absurd h (by simp [test_connections])
  · intro h
    subst h
    cases hr : (runAllJobs ps).2 with
    | ok res => simp [run_daily_etl, test_connections, hr]
    | error e => simp [run_daily_etl, test_connections, hr]

/-- Witness for C10 at concrete inputs: a failing database test stops the
run before any job with the fixed error text; a passing one lets the jobs
run. -/
theorem claim_C10_connectivity_gate_witness :
    run_daily_etl false initPipeline
        (fun ps => (ps, (.ok (0 : Nat) : Except String Nat))) =
      (initPipeline, .failedResult "Connection test failed") ∧
    run_daily_etl true initPipeline
        (fun ps => (ps, (.ok (0 : Nat) : Except String Nat))) =
      (initPipeline, .pipelineResult 0) := by
  have h1 := (claim_C10_connectivity_gate false initPipeline
    (fun ps => (ps, (.ok (0 : Nat) : Except String Nat)))).1 (Or.inl rfl)
  have h2 := (claim_C10_connectivity_gate true initPipeline
    (fun ps => (ps, (.ok (0 : Nat) : Except String Nat)))).2.2.2 rfl
  exact ⟨h1, h2⟩

theorem fetchAux_spec (api : Nat → PageResult) (items : Nat → List JikanAnime)
    (next : Nat → Bool) (max_pages : Option Nat) (k : Nat)
    (hstop : next k = false ∨ max_pages = some k)
    (hcap : ∀ m, max_pages = some m → k ≤ m) :
    ∀ (fuel p : Nat) (acc : List JikanAnime) (reqs : List Nat),
    1 ≤ p → p ≤ k → k - p < fuel →
    (∀ q, p ≤ q → q ≤ k → api q = .success (items q) (next q)) →
    (∀ q, p ≤ q → q < k → next q = true) →
    fetchAux api max_pages fuel p acc reqs =
      (acc ++ ((List.range' p (k + 1 - p)).map items).flatten,
        reqs ++ List.range' p (k + 1 - p)) := by
  intro fuel
  induction fuel with
  | zero =>
    intro p acc reqs hp1 hpk hfuel _ _
    omega
  | succ f ih =>
    intro p acc reqs hp1 hpk hfuel hapi hnext
    have hsucc : api p = .success (items p) (next p) :=
      hapi p (Nat.le_refl p) hpk
    have hone : List.range' p (k + 1 - p) = p :: List.range' (p + 1) (k - p) := by
      rw [show k + 1 - p = (k - p) + 1 from by omega, List.range'_succ]
    by_cases hpk2 : p = k
    · subst hpk2
      have hrange : List.range' p (p + 1 - p) = [p] := by
        rw [show p + 1 - p = 1 from by omega, List.range'_one]
      rcases hstop with hs | hs
      · simp [fetchAux, hsucc, hs, hrange]
      · cases hnk : next p
        · simp [fetchAux, hsucc, hnk, hrange]
        · simp [fetchAux, hsucc, hnk, hs, hrange]
    · have hplt : p < k := Nat.lt_of_le_of_ne hpk hpk2
      have hnp : next p = true := hnext p (Nat.le_refl p) hplt
      have hrec := ih (p + 1) (acc ++ items p) (reqs ++ [p])
        (by omega) (by omega) (by omega)
        (fun q hq1 hq2 => hapi q (by omega) hq2)
        (fun q hq1 hq2 => hnext q (by omega) hq2)
      cases hmp : max_pages with
      | none =>
        rw [show fetchAux api none (f + 1) p acc reqs =
            fetchAux api none f (p + 1) (acc ++ items p) (reqs ++ [p]) from by
          simp [fetchAux, hsucc, hnp]]
        rw [hmp] at hrec
        rw [hrec, hone]
        simp
      | some m =>
        have hkm : k ≤ m := hcap m hmp
        have hnotle : ¬ m ≤ p := by omega
        rw [show fetchAux api (some m) (f + 1) p acc reqs =
            fetchAux api (some m) f (p + 1) (acc ++ items p) (reqs ++ [p]) from by
          simp [fetchAux, hsucc, hnp, hnotle]]
        rw [hmp] at hrec
        rw [hrec, hone]
        simp

/-- C5 — Pagination termination and order: when pages `1..k` all answer
successfully, every page before `k` reports a next page, and page `k` is
either the first page reporting `has_next_page = false` or the configured
`max_pages` cap (whichever comes first, the cap being no smaller than `k`),
then `fetch_anime_search` requests exactly pages `1, 2, ..., k` once each in
increasing order and returns the concatenation of their items in page order
with within-page order preserved. -/
theorem claim_C5_pagination (api : Nat → PageResult)
    (items : Nat → List JikanAnime) (next : Nat → Bool)
    (max_pages : Option Nat) (k fuel : Nat) (hk : 1 ≤ k) (hfuel : k ≤ fuel)
    (hapi : ∀ q, 1 ≤ q → q ≤ k → api q = .success (items q) (next q))
    (hnext : ∀ q, 1 ≤ q → q < k → next q = true)
    (hstop : next k = false ∨ max_pages = some k)
    (hcap : ∀ m, max_pages = some m → k ≤ m) :
    fetch_anime_search api max_pages fuel =
      (((List.range' 1 k).map items).flatten, List.range' 1 k) := by
  unfold fetch_anime_search
  have h := fetchAux_spec api items next max_pages k hstop hcap fuel 1 [] []
    (Nat.le_refl 1) hk (by omega) hapi hnext
  simpa using h

/-- Witness for C5 at a concrete input: an API that always reports a next
page, fetched with `max_pages = 1`, issues exactly the single page request
for page 1. -/
theorem claim_C5_pagination_witness :
    fetch_anime_search (fun _ => .success [sampleAnime] true) (some 1) 1 =
      ([sampleAnime], [1]) := by
  have h := claim_C5_pagination (fun _ => .success [sampleAnime] true)
    (fun _ => [sampleAnime]) (fun _ => true) (some 1) 1 1
    (Nat.le_refl 1) (Nat.le_refl 1)
    (fun q h1 h2 => rfl) (fun q h1 h2 => rfl)
    (Or.inr rfl) (fun m hm => Nat.le_of_eq (Option.some.inj hm))
  rw [h]
  simp

theorem splitOnP_chunks_no_p {α : Type} (p : α → Bool) :
    ∀ (s : List α) (w : List α), w ∈ s.splitOnP p → ∀ c ∈ w, ¬ p c = true := by
  intro s
  induction s with
  | nil =>
    intro w hw c hc
    rw [List.splitOnP_nil] at hw
    simp only [List.mem_singleton] at hw
    subst hw
    cases hc
  | cons x xs ih =>
    intro w hw c hc
    rw [List.splitOnP_cons] at hw
    by_cases hx : p x
    · rw [if_pos hx] at hw
      rcases List.mem_cons.mp hw with hw | hw
      · subst hw
        cases hc
      · exact ih w hw c hc
    · rw [if_neg hx] at hw
      cases hsp : xs.splitOnP p with
      | nil => exact absurd hsp (List.splitOnP_ne_nil p xs)
      | cons h t =>
        rw [hsp, List.modifyHead_cons] at hw
        rcases List.mem_cons.mp hw with hw | hw
        · subst hw
          rcases List.mem_cons.mp hc with hc | hc
          · subst hc
            exact fun hpc => hx hpc
          · exact ih h (by rw [hsp]; exact List.mem_cons_self h t) c hc
        · exact ih w (by rw [hsp]; exact List.mem_cons_of_mem h hw) c hc

theorem pySplit_words (s : PyStr) :
    ∀ w ∈ pySplit s, w ≠ [] ∧ ∀ c ∈ w, pyIsSpace c = false := by
  intro w hw
  unfold pySplit at hw
  obtain ⟨hw1, hw2⟩ := List.mem_filter.mp hw
  refine ⟨by simpa using hw2, ?_⟩
  intro c hc
  have h := splitOnP_chunks_no_p pyIsSpace s w hw1 c hc
  simpa using h

theorem chain'_of_all_not_space {l : PyStr}
    (h : ∀ c ∈ l, pyIsSpace c = false) :
    l.Chain' (fun a b => pyIsSpace a = false ∨ pyIsSpace b = false) := by
  induction l with
  | nil => exact List.chain'_nil
  | cons x xs ih =>
    cases xs with
    | nil => simp
    | cons y ys =>
      rw [List.chain'_cons]
      exact ⟨Or.inl (h x (List.mem_cons_self x _)),
        ih (fun c hc => h c (List.mem_cons_of_mem x hc))⟩

theorem intercalate_cons_cons (v w : PyStr) (vs : List PyStr) :
    List.intercalate [' '] (v :: w :: vs) =
      v ++ ' ' :: List.intercalate [' '] (w :: vs) := by
  simp [List.intercalate, List.intersperse_cons₂]

theorem intercalate_head_append (v : PyStr) (vs : List PyStr) :
    ∃ u, List.intercalate [' '] (v :: vs) = v ++ u := by
  cases vs with
  | nil => exact ⟨[], by simp [List.intercalate]⟩
  | cons w ws =>
    exact ⟨' ' :: List.intercalate [' '] (w :: ws), intercalate_cons_cons v w ws⟩

theorem chain'_intercalate_words :
    ∀ (ws : List PyStr),
    (∀ w ∈ ws, w ≠ [] ∧ ∀ c ∈ w, pyIsSpace c = false) →
    (List.intercalate [' '] ws).Chain'
      (fun a b => pyIsSpace a = false ∨ pyIsSpace b = false) := by
  intro ws
  induction ws with
  | nil =>
    intro _
    simp [List.intercalate]
  | cons w rest ih =>
    intro h
    cases rest with
    | nil =>
      have hw : List.intercalate [' '] [w] = w := by
        simp [List.intercalate]
      rw [hw]
      exact chain'_of_all_not_space (h w (List.mem_cons_self w _)).2
    | cons v vs =>
      rw [intercalate_cons_cons w v vs, List.chain'_append]
      refine ⟨chain'_of_all_not_space (h w (List.mem_cons_self w _)).2, ?_, ?_⟩
      · rw [List.chain'_cons']
        refine ⟨?_, ih (fun x hx => h x (List.mem_cons_of_mem w hx))⟩
        intro y hy
        obtain ⟨u, hu⟩ := intercalate_head_append v vs
        obtain ⟨hvne, hvc⟩ := h v (by simp)
        obtain ⟨c, v', rfl⟩ := List.exists_cons_of_ne_nil hvne
        rw [hu] at hy
        simp only [List.cons_append, List.head?_cons, Option.mem_def,
          Option.some.injEq] at hy
        subst hy
        exact Or.inr (hvc c (List.mem_cons_self c v'))
      · intro x hx y hy
        obtain ⟨hwne, hwc⟩ := h w (List.mem_cons_self w _)
        obtain ⟨hlast, hxeq⟩ := List.mem_getLast?_eq_getLast hx
        left
        rw [hxeq]
        exact hwc _ (List.getLast_mem hlast)

theorem intercalate_words_chars :
    ∀ (ws : List PyStr),
    (∀ w ∈ ws, ∀ c ∈ w, pyIsSpace c = false) →
    ∀ c ∈ List.intercalate [' '] ws, pyIsSpace c = false ∨ c = ' ' := by
  intro ws
  induction ws with
  | nil =>
    intro _ c hc
    simp [List.intercalate] at hc
  | cons w rest ih =>
    intro h c hc
    cases rest with
    | nil =>
      have hw : List.intercalate [' '] [w] = w := by
        simp [List.intercalate]
      rw [hw] at hc
      exact Or.inl (h w (List.mem_cons_self w _) c hc)
    | cons v vs =>
      rw [intercalate_cons_cons w v vs] at hc
      rcases List.mem_append.mp hc with hc | hc
      · exact Or.inl (h w (List.mem_cons_self w _) c hc)
      · rcases List.mem_cons.mp hc with hc | hc
        · exact Or.inr hc
        · exact ih (fun x hx => h x (List.mem_cons_of_mem w hx)) c hc

/-- C6 — Text truncation: cleaning collapses consecutive whitespace to
single spaces (the cleaned text never holds two adjacent whitespace
characters, and every character of it is either a non-whitespace character
of a word or the single separator space); cleaned text of at most 5000
characters is returned unchanged, and cleaned text longer than 5000
characters is truncated to its first 4997 characters plus "...", giving
exactly 5000 characters ending in "...". -/
theorem claim_C6_text_truncation (t : PyStr) (ht : t ≠ []) :
    (pyClean t).Chain' (fun a b => pyIsSpace a = false ∨ pyIsSpace b = false) ∧
    (∀ c ∈ pyClean t, pyIsSpace c = false ∨ c = ' ') ∧
    ((pyClean t).length ≤ 5000 → clean_text (some t) = some (pyClean t)) ∧
    (5000 < (pyClean t).length →
      clean_text (some t) = some ((pyClean t).take 4997 ++ ['.', '.', '.']) ∧
      ((pyClean t).take 4997 ++ ['.', '.', '.']).length = 5000 ∧
      ∃ pre, (pyClean t).take 4997 ++ ['.', '.', '.'] = pre ++ ['.', '.', '.']) := by
  refine ⟨?_, ?_, ?_, ?_⟩
  · exact chain'_intercalate_words (pySplit t) (pySplit_words t)
  · exact intercalate_words_chars (pySplit t)
      (fun w hw => (pySplit_words t w hw).2)
  · intro hle
    simp [clean_text, ht, Nat.not_lt.mpr hle]
  · intro hgt
    refine ⟨?_, ?_, ⟨(pyClean t).take 4997, rfl⟩⟩
    · simp [clean_text, ht, hgt]
    · rw [List.length_append, List.length_take]
      simp only [List.length_cons, List.length_nil]
      omega

/-- Witness for C6 at a concrete input: a 6000-character synopsis with no
whitespace is transformed to exactly 5000 characters ending in "...". -/
theorem claim_C6_text_truncation_witness :
    clean_text (some (List.replicate 6000 'a')) =
      some (List.replicate 4997 'a' ++ ['.', '.', '.']) ∧
    ((List.replicate 4997 'a' : PyStr) ++ ['.', '.', '.']).length = 5000 := by
  have hne : (List.replicate 6000 'a' : PyStr) ≠ [] := by
    simp only [ne_eq, List.replicate_eq_nil_iff]
    omega
  have hd : decide ((List.replicate 6000 'a' : PyStr) ≠ []) = true :=
    decide_eq_true hne
  have hsplit : pySplit (List.replicate 6000 'a') = [List.replicate 6000 'a'] := by
    unfold pySplit
    rw [List.splitOnP_eq_single _ _
      (fun x hx => by rw [List.eq_of_mem_replicate hx]; decide)]
    simp only [List.filter_cons, List.filter_nil, hd, if_true]
  have hclean : pyClean (List.replicate 6000 'a') = List.replicate 6000 'a' := by
    unfold pyClean
    rw [hsplit]
    simp only [List.intercalate, List.intersperse_single, List.flatten_cons,
      List.flatten_nil, List.append_nil]
  have hlen : 5000 < (pyClean (List.replicate 6000 'a')).length := by
    rw [hclean]
    simp only [List.length_replicate]
    omega
  have h := claim_C6_text_truncation (List.replicate 6000 'a') hne
  obtain ⟨hout, hlen5000, -⟩ := h.2.2.2 hlen
  rw [hclean, List.take_replicate,
    show min 4997 6000 = 4997 from by omega] at hout hlen5000
  exact ⟨hout, hlen5000⟩
